import Mathlib

/-!
Verification of the rvault core (src/core/rvault.c, src/core/storage.h).

The metadata file is modelled at the byte level: a `List Nat` of byte
values.  The packed header of storage.h is six bytes
(`ver, cipher, iv_len : u16, kp_len : u16`), padded to the 64-byte
storage alignment; rvault.c additionally stores the 16-byte UID and the
flags byte in the header region (the spec places them at offsets 6..21
and 22).  Multi-byte stores are endian-sensitive in C, so serialization
takes the host endianness as an explicit parameter: `htobe16` always
yields big-endian bytes, while a plain assignment to a `uint16_t` field
stores host-order bytes.

The cryptographic primitives (crypto.c), the KDF, the hex parser and the
key-server client are not part of the tree; they are modelled from the
spec and kept abstract (function parameters collected in `CryptoEnv` and
oracle records) wherever their internals do not matter.
-/

/-- STORAGE_ALIGNMENT from storage.h. -/
def STORAGE_ALIGNMENT : Nat := 64

/-- STORAGE_ALIGN(x): roundup2(x, 64) from storage.h. -/
def STORAGE_ALIGN (x : Nat) : Nat := (x + 63) / 64 * 64

/-- sizeof(rvault_hdr_t): the packed struct in storage.h has fields
ver (u8), cipher (u8), iv_len (u16), kp_len (u16). -/
def RVAULT_HDR_SIZEOF : Nat := 6

/-- RVAULT_HDR_LEN = STORAGE_ALIGN(sizeof(rvault_hdr_t)) = 64. -/
def RVAULT_HDR_LEN : Nat := STORAGE_ALIGN RVAULT_HDR_SIZEOF

/-- HMAC-SHA3-256 produces a 32-byte tag. -/
def HMAC_SHA3_256_BUFLEN : Nat := 32

/-- Modelled from the spec: RVAULT_ABI_VER lives in rvault.h, which is not
in the tree; it is a fixed build constant compared for equality only. -/
def RVAULT_ABI_VER : Nat := 1

/-- Flags byte: NOAUTH = 1 (spec section 6). -/
def RVAULT_FLAG_NOAUTH : Nat := 1

/-- htobe16 then stored in memory: big-endian byte pair (high byte first),
independent of the host. -/
def be16bytes (v : Nat) : List Nat := [v % 65536 / 256, v % 256]

/-- A plain store to a packed uint16_t field: host-order byte pair. -/
def host16bytes (hostLE : Bool) (v : Nat) : List Nat :=
  if hostLE then [v % 256, v % 65536 / 256] else [v % 65536 / 256, v % 256]

/-- be16toh applied to a stored uint16_t: read the two bytes (in address
order) as big-endian, independent of the host. -/
def be16dec (b0 b1 : Nat) : Nat := 256 * b0 + b1

/-- A plain read of a packed uint16_t field: host-order decode. -/
def host16dec (hostLE : Bool) (b0 b1 : Nat) : Nat :=
  if hostLE then b0 + 256 * b1 else 256 * b0 + b1

/-- hdr->ver. -/
def hdrVer (f : List Nat) : Nat := f.getD 0 0

/-- hdr->cipher. -/
def hdrCipher (f : List Nat) : Nat := f.getD 1 0

/-- be16toh(hdr->iv_len) (bytes 2..3). -/
def hdrIvLen (f : List Nat) : Nat := be16dec (f.getD 2 0) (f.getD 3 0)

/-- be16toh(hdr->kp_len) (bytes 4..5), as used by the storage.h macros
RVAULT_HDR_TO_HMAC, RVAULT_HMAC_DATALEN and RVAULT_FILE_LEN. -/
def hdrKpLenBE (f : List Nat) : Nat := be16dec (f.getD 4 0) (f.getD 5 0)

/-- A plain read of hdr->kp_len (bytes 4..5) in host order, as done by
rvault_open ("kp_len = hdr->kp_len;"). -/
def hdrKpLenHost (hostLE : Bool) (f : List Nat) : Nat :=
  host16dec hostLE (f.getD 4 0) (f.getD 5 0)

/-- hdr->flags; rvault.c stores the flags byte in the header region
(offset 22 per spec section 6; the struct in storage.h omits the field). -/
def hdrFlags (f : List Nat) : Nat := f.getD 22 0

/-- hdr->uid: 16 bytes at offset 6 (spec section 6 layout). -/
def hdrUid (f : List Nat) : List Nat := (f.drop 6).take 16

/-- RVAULT_HMAC_DATALEN(h) = RVAULT_HDR_LEN + be16toh(iv_len) + be16toh(kp_len). -/
def RVAULT_HMAC_DATALEN (f : List Nat) : Nat :=
  RVAULT_HDR_LEN + hdrIvLen f + hdrKpLenBE f

/-- RVAULT_FILE_LEN(h) = RVAULT_HMAC_DATALEN(h) + HMAC_SHA3_256_BUFLEN. -/
def RVAULT_FILE_LEN (f : List Nat) : Nat :=
  RVAULT_HMAC_DATALEN f + HMAC_SHA3_256_BUFLEN

/-- RVAULT_HDR_TO_IV(h): the iv_len bytes following the aligned header. -/
def RVAULT_HDR_TO_IV (f : List Nat) : List Nat :=
  (f.drop RVAULT_HDR_LEN).take (hdrIvLen f)

/-- The KDF parameter bytes rvault_open passes to the key derivation: the
region starting at RVAULT_HDR_TO_KP(h), of the host-order kp_len bytes. -/
def hdrKpHost (hostLE : Bool) (f : List Nat) : List Nat :=
  (f.drop (RVAULT_HDR_LEN + hdrIvLen f)).take (hdrKpLenHost hostLE f)

/-- RVAULT_HDR_TO_HMAC(h): the 32 tag bytes after the IV and KDF params. -/
def hdrHmac (f : List Nat) : List Nat :=
  (f.drop (RVAULT_HMAC_DATALEN f)).take HMAC_SHA3_256_BUFLEN

/-- CIPHER_NONE: the reserved zero cipher identifier, always rejected. -/
def CIPHER_NONE : Nat := 0

/-- Modelled from the spec: crypto_cipher_id (crypto.c is not in the tree)
maps the recognized cipher names to nonzero identifiers and everything
else to CIPHER_NONE. -/
def crypto_cipher_id (s : String) : Nat :=
  if s = "aes-256-cbc" then 1
  else if s = "chacha20" then 2
  else if s = "aes-256-gcm" then 3
  else if s = "chacha20-poly1305" then 4
  else CIPHER_NONE

/-- Modelled from the spec: the build-time default cipher. -/
def CRYPTO_CIPHER_PRIMARY : Nat := 1

/-- The recognized cipher set: the four enumerated ciphers; zero is
reserved and rejected. -/
def cipherRecognized (c : Nat) : Bool := 1 ≤ c && c ≤ 4

/-- Modelled from the spec: the abstract behaviour of the missing
primitives (crypto.c, KDF, HMAC), plus the host endianness. `kdf pwd kp`
is scrypt key derivation from a passphrase and a KDF parameter blob
(`none` = failure); `hmac key data` is the 32-byte HMAC-SHA3-256 tag;
`ivLenOf`/`keyLenOf` give each cipher's required IV and key lengths. -/
structure CryptoEnv where
  hostLE : Bool
  ivLenOf : Nat → Nat
  keyLenOf : Nat → Nat
  kdf : String → List Nat → Option (List Nat)
  hmac : List Nat → List Nat → List Nat

/-- The crypto_t state: a cipher together with the currently installed IV
and key, if any. -/
structure crypto_t where
  cipher : Nat
  iv : Option (List Nat) := none
  key : Option (List Nat) := none
deriving DecidableEq

/-- crypto_create: succeeds exactly on the recognized ciphers. -/
def crypto_create (c : Nat) : Option crypto_t :=
  if cipherRecognized c then some { cipher := c } else none

/-- crypto_set_iv: fails if the length is not the cipher's IV length. -/
def crypto_set_iv (env : CryptoEnv) (st : crypto_t) (iv : List Nat) :
    Option crypto_t :=
  if iv.length = env.ivLenOf st.cipher then some { st with iv := some iv }
  else none

/-- crypto_set_key: install a known key; fails if the length is wrong. -/
def crypto_set_key (env : CryptoEnv) (st : crypto_t) (k : List Nat) :
    Option crypto_t :=
  if k.length = env.keyLenOf st.cipher then some { st with key := some k }
  else none

/-- crypto_set_passphrasekey: derive K_p from the passphrase and the KDF
parameter blob and install it as the current key. -/
def crypto_set_passphrasekey (env : CryptoEnv) (st : crypto_t)
    (pwd : String) (kp : List Nat) : Option crypto_t :=
  (env.kdf pwd kp).map (fun k => { st with key := some k })

/-- crypto_get_key: borrow of the installed key. -/
def crypto_get_key (st : crypto_t) : Option (List Nat) := st.key

/-- The one directory holding the vault: whether it exists and the
contents of its metadata file (`none` = no such file). -/
structure FS where
  dirExists : Bool
  metadata : Option (List Nat)
deriving DecidableEq

deriving instance DecidableEq for Except

/-- Errors surfaced by rvault_init (each corresponds to one distinct
`goto err` site / log message in rvault.c). -/
inductive InitErr
  | badCipher | genIvFail | setIvFail | kdfParamsFail | kdfFail | badUid
  | noServer | serverFail | dirNotFound | metaExists | writeFail
deriving DecidableEq

/-- Hex digit value. -/
def hexVal (c : Char) : Option Nat :=
  if ('0' ≤ c && c ≤ '9') then some (c.toNat - 48)
  else if ('a' ≤ c && c ≤ 'f') then some (c.toNat - 87)
  else if ('A' ≤ c && c ≤ 'F') then some (c.toNat - 70)
  else none

/-- Hex pairs to bytes; fails on a non-digit or an odd digit count. -/
def hexPairs : List Char → Option (List Nat)
  | [] => some []
  | [_] => none
  | c1 :: c2 :: rest =>
    match hexVal c1, hexVal c2, hexPairs rest with
    | some h, some l, some bs => some ((16 * h + l) :: bs)
    | _, _, _ => none

/-- Modelled from the spec: hex_read_arbitrary_buf (utils, not in the
tree) parses a UUID given in hex representation, tolerating the dashes
of the canonical form. -/
def hex_read_arbitrary_buf (s : String) : Option (List Nat) :=
  hexPairs (s.data.filter (fun c => c ≠ '-'))

/-- Oracles for the nondeterministic steps of rvault_init: the generated
IV (crypto_gen_iv), the generated KDF parameter blob (kdf_create_params),
the key K_e installed by a successful server registration (rvault_key_set,
`none` = registration failure), and how many bytes fs_write manages to
write. -/
structure InitOracle where
  genIv : Option (List Nat)
  kdfParams : Option (List Nat)
  serverKey : Option (List Nat)
  writeBytes : Nat

/-- The header region bytes assembled by rvault_init: ver, cipher,
iv_len (htobe16), kp_len (plain host-order store), uid, flags, zero
padding to the 64-byte alignment (the buffer comes from calloc). -/
def mkHdrBytes (hostLE : Bool) (cipher flags ivLen kpLen : Nat)
    (uid : List Nat) : List Nat :=
  let fields := [RVAULT_ABI_VER, cipher % 256] ++ be16bytes ivLen ++
    host16bytes hostLE kpLen ++ uid.map (fun b => b % 256) ++ [flags % 256]
  fields ++ List.replicate (RVAULT_HDR_LEN - fields.length) 0

/-- The whole metadata record rvault_init writes: the calloc-zeroed
buffer of RVAULT_HDR_LEN + iv_len + kp_len + 32 bytes filled with the
header region, IV and KDF blob; the HMAC is computed over
RVAULT_HMAC_DATALEN(hdr) bytes and copied to RVAULT_HDR_TO_HMAC(hdr).
Both macros decode kp_len with be16toh, so when that decode disagrees
with the stored value the copy misses the tag slot (out of bounds in C)
and the buffer keeps its zeros; the model clips both accesses to the
allocation. -/
def initFileBytes (env : CryptoEnv) (cipher flags : Nat)
    (iv kp uid key : List Nat) : List Nat :=
  let base := mkHdrBytes env.hostLE cipher flags iv.length kp.length uid ++
    iv ++ kp ++ List.replicate HMAC_SHA3_256_BUFLEN 0
  let tag := env.hmac key (base.take (RVAULT_HMAC_DATALEN base))
  let d := RVAULT_HMAC_DATALEN base
  if d + HMAC_SHA3_256_BUFLEN ≤ base.length then
    base.take d ++ tag ++ base.drop (d + HMAC_SHA3_256_BUFLEN)
  else base

/-- rvault_init, following the control flow of rvault.c: resolve the
cipher, create the crypto state, generate and set the IV, generate the
KDF parameters, derive and install K_p, assemble the header, parse the
UID, register with the server unless NOAUTH (installing the returned
K_e), compute the header HMAC, then create the metadata file with
O_CREAT|O_EXCL|O_WRONLY|O_SYNC mode 0600 and write the record.  Returns
the result together with the final file-system state. -/
def rvault_init (env : CryptoEnv) (orc : InitOracle) (fs : FS)
    (server : Option String) (pwd : String) (uidStr : String)
    (cipherStr : Option String) (flags : Nat) : Except InitErr Unit × FS :=
  let cipherRes : Option Nat :=
    match cipherStr with
    | some s => if crypto_cipher_id s = CIPHER_NONE then none
                else some (crypto_cipher_id s)
    | none => some CRYPTO_CIPHER_PRIMARY
  match cipherRes with
  | none => (.error .badCipher, fs)
  | some cipher =>
  match crypto_create cipher with
  | none => (.error .badCipher, fs)
  | some st0 =>
  match orc.genIv with
  | none => (.error .genIvFail, fs)
  | some iv =>
  match crypto_set_iv env st0 iv with
  | none => (.error .setIvFail, fs)
  | some st1 =>
  match orc.kdfParams with
  | none => (.error .kdfParamsFail, fs)
  | some kp =>
  match crypto_set_passphrasekey env st1 pwd kp with
  | none => (.error .kdfFail, fs)
  | some st2 =>
  match hex_read_arbitrary_buf uidStr with
  | none => (.error .badUid, fs)
  | some uid =>
  if uid.length ≠ 16 then (.error .badUid, fs)
  else
  let keyRes : Except InitErr (List Nat) :=
    if flags &&& RVAULT_FLAG_NOAUTH = 0 then
      match server with
      | none => .error .noServer
      | some _ =>
        match orc.serverKey with
        | none => .error .serverFail
        | some ke => .ok ke
    else .ok ((crypto_get_key st2).getD [])
  match keyRes with
  | .error e => (.error e, fs)
  | .ok key =>
  let bytes := initFileBytes env cipher flags iv kp uid key
  if ¬ fs.dirExists then (.error .dirNotFound, fs)
  else
  match fs.metadata with
  | some _ => (.error .metaExists, fs)
  | none =>
    let written := orc.writeBytes ⊓ bytes.length
    if written = bytes.length then (.ok (), { fs with metadata := some bytes })
    else (.error .writeFail, { fs with metadata := some (bytes.take written) })

/-- Errors surfaced by rvault_open / rvault_open_ekey, one per distinct
failure site in rvault.c.  `corruptShort` and `corruptLen` are the
"metadata file corrupted" checks; `verifyFail` is the HMAC branch that
logs "verification failed: invalid passphrase?". -/
inductive OpenErr
  | dirNotFound | noMeta | corruptShort | badVer | corruptLen | badCipher
  | setIvFail | kdfFail | noServer | fetchFail | verifyFail | recoveryFail
deriving DecidableEq

/-- The rvault_t object: calloc-zeroed at creation, fields filled in as
the open paths progress.  `file_list`/`file_count` mirror the intrusive
list of open file objects and its counter. -/
structure rvault_t where
  base_path : Option String := none
  uid : List Nat := []
  cipher : Nat := 0
  crypto : Option crypto_t := none
  server_url : Option String := none
  file_list : List Nat := []
  file_count : Nat := 0
deriving DecidableEq

/-- rvault_hmac_compute: HMAC over RVAULT_HMAC_DATALEN(hdr) bytes of the
mapped file, keyed by the currently installed key (ASSERTed non-NULL). -/
def rvault_hmac_compute (env : CryptoEnv) (st : crypto_t) (f : List Nat) :
    List Nat :=
  env.hmac ((crypto_get_key st).getD []) (f.take (RVAULT_HMAC_DATALEN f))

/-- rvault_hmac_verify: constant-time comparison of the stored tag with a
freshly computed one; true iff the memcmp finds them equal. -/
def rvault_hmac_verify (env : CryptoEnv) (st : crypto_t) (f : List Nat) :
    Bool :=
  rvault_hmac_compute env st f = hdrHmac f

/-- rvault_open_hdr: verify the ABI version, verify
RVAULT_FILE_LEN(hdr) against the mapped length, create the vault object,
create the crypto state for hdr->cipher and set the IV from the file. -/
def rvault_open_hdr (env : CryptoEnv) (f : List Nat)
    (server : Option String) (fileLen : Nat) : Except OpenErr rvault_t :=
  if hdrVer f ≠ RVAULT_ABI_VER then .error .badVer
  else if RVAULT_FILE_LEN f ≠ fileLen then .error .corruptLen
  else
    match crypto_create (hdrCipher f) with
    | none => .error .badCipher
    | some st =>
      match crypto_set_iv env st (RVAULT_HDR_TO_IV f) with
      | none => .error .setIvFail
      | some st1 =>
        .ok { cipher := hdrCipher f, server_url := server, uid := hdrUid f,
              crypto := some st1 }

/-- Oracle for rvault_open's server round trip: the K_e obtained by
fetching and unwrapping K_s (rvault_key_get); `none` is an
authentication/network failure. -/
structure OpenOracle where
  fetchKey : Option (List Nat)

/-- rvault_open, following rvault.c: map the metadata (rejecting a
missing directory or file and anything shorter than one header), parse
and check the header via rvault_open_hdr, derive and install K_p from
the passphrase and the kp_len = hdr->kp_len bytes of KDF parameters
(plain field read, no be16toh), fetch and install K_e from the server
unless NOAUTH, then verify the header HMAC under the installed key. -/
def rvault_open (env : CryptoEnv) (orc : OpenOracle) (fs : FS)
    (path : String) (server : Option String) (pwd : String) :
    Except OpenErr rvault_t :=
  if ¬ fs.dirExists then .error .dirNotFound
  else
  match fs.metadata with
  | none => .error .noMeta
  | some f =>
  if f.length < RVAULT_HDR_LEN then .error .corruptShort
  else
  match rvault_open_hdr env f server f.length with
  | .error e => .error e
  | .ok vault0 =>
  let vault1 := { vault0 with base_path := some path }
  match vault1.crypto with
  | none => .error .kdfFail
  | some st =>
  match crypto_set_passphrasekey env st pwd (hdrKpHost env.hostLE f) with
  | none => .error .kdfFail
  | some st1 =>
  let keyRes : Except OpenErr crypto_t :=
    if hdrFlags f &&& RVAULT_FLAG_NOAUTH = 0 then
      match server with
      | none => .error .noServer
      | some _ =>
        match orc.fetchKey with
        | none => .error .fetchFail
        | some ke => .ok { st1 with key := some ke }
    else .ok st1
  match keyRes with
  | .error e => .error e
  | .ok st2 =>
  if rvault_hmac_verify env st2 f then .ok { vault1 with crypto := some st2 }
  else .error .verifyFail

/-- The parsed recovery blob (recovery.c is not in the tree): the raw
bytes of the METADATA section (identical to the metadata file) and the
raw K_e bytes of the EKEY section. -/
structure RecoveryBlob where
  metadata : List Nat
  ekey : List Nat
deriving DecidableEq

/-- rvault_open_ekey: open a vault for recovery.  Parse the recovery
blob (`none` models fopen/rvault_recovery_import failure), check the
vault directory, build the vault from the blob's METADATA section via
rvault_open_hdr (with a NULL server), then install K_e directly from the
EKEY section with crypto_set_key.  No passphrase derivation, no server
contact and no HMAC verification take place. -/
def rvault_open_ekey (env : CryptoEnv) (fs : FS) (path : String)
    (blob : Option RecoveryBlob) : Except OpenErr rvault_t :=
  match blob with
  | none => .error .recoveryFail
  | some b =>
  if ¬ fs.dirExists then .error .dirNotFound
  else
  match rvault_open_hdr env b.metadata none b.metadata.length with
  | .error e => .error e
  | .ok vault0 =>
  let vault1 := { vault0 with base_path := some path }
  match vault1.crypto with
  | none => .error .setIvFail
  | some st =>
  match crypto_set_key env st b.ekey with
  | none => .error .setIvFail
  | some st1 => .ok { vault1 with crypto := some st1 }

/-- fileobj_close on the head of the list: the file object removes
itself from the vault's list and the counter drops (modelled from the
code comment "Closing removes the file-object from the list";
fileobj.c is not in the tree). -/
def fileobj_close (v : rvault_t) : rvault_t :=
  match v.file_list with
  | [] => v
  | _ :: rest => { v with file_list := rest, file_count := v.file_count - 1 }

/-- The rvault_close_files loop: close the first file object until the
list is empty; returns the final counter value and the closed objects in
order. -/
def closeFilesLoop : List Nat → Nat → Nat × List Nat
  | [], cnt => (cnt, [])
  | x :: rest, cnt =>
    let r := closeFilesLoop rest (cnt - 1)
    (r.1, x :: r.2)

/-- rvault_close_files: drain the file list (ASSERT(file_count == 0)
afterwards). -/
def rvault_close_files (v : rvault_t) : rvault_t × List Nat :=
  let r := closeFilesLoop v.file_list v.file_count
  ({ v with file_list := [], file_count := r.1 }, r.2)

/-- The observable actions of rvault_close: which file objects were
closed, whether free(base_path) ran and whether crypto_destroy ran. -/
structure CloseEffects where
  closedFiles : List Nat
  freedBase : Bool
  destroyedCrypto : Bool
deriving DecidableEq

/-- rvault_close: close every file object, then free base_path only if
it is non-NULL and destroy the crypto state only if it is non-NULL,
then free the vault itself. -/
def rvault_close (v : rvault_t) : CloseEffects :=
  let r := rvault_close_files v
  { closedFiles := r.2, freedBase := r.1.base_path.isSome,
    destroyedCrypto := r.1.crypto.isSome }

/-- One step of the rvault_iter_dir readdir loop over the stored entry
names: "." and ".." are passed to the callback unchanged; other names
starting with '.' are skipped; names starting with the metadata-file
name (RVAULT_META_PREF, a value in rvault.h outside the tree, kept
abstract) are skipped; every remaining name is resolved to its logical
name and passed to the callback, and a name that fails to resolve makes
the whole iteration close the directory and return -1.  Returns the
callback invocations in order and whether the loop returned 0. -/
def iterLoop (metaPref : List Char) (resolve : List Char → Option (List Char)) :
    List (List Char) → List (List Char) × Bool
  | [] => ([], true)
  | e :: rest =>
    if e = ['.'] ∨ e = ['.', '.'] then
      let r := iterLoop metaPref resolve rest
      (e :: r.1, r.2)
    else if e.head? = some '.' then iterLoop metaPref resolve rest
    else if metaPref.isPrefixOf e then iterLoop metaPref resolve rest
    else
      match resolve e with
      | none => ([], false)
      | some n =>
        let r := iterLoop metaPref resolve rest
        (n :: r.1, r.2)

/-- rvault_iter_dir: resolve the logical path and open the directory
(`none` models rvault_resolve_path or opendir failing, returning -1
before any callback), then run the readdir loop over the stored entry
names with rvault_resolve_vname as the name resolver.  Names are lists
of characters, as the C code works with char buffers. -/
def rvault_iter_dir (metaPref : List Char)
    (resolve : List Char → Option (List Char))
    (dir : Option (List (List Char))) : List (List Char) × Bool :=
  match dir with
  | none => ([], false)
  | some entries => iterLoop metaPref resolve entries

/-- Spec-side description of the names rvault_iter_dir hands to the
callback: "." and ".." unchanged, dot-files and metadata-named entries
dropped, every other entry replaced by its resolved logical name. -/
def iterDirSpec (metaPref : List Char)
    (resolve : List Char → Option (List Char))
    (entries : List (List Char)) : List (List Char) :=
  entries.filterMap fun e =>
    if e = ['.'] ∨ e = ['.', '.'] then some e
    else if e.head? = some '.' then none
    else if metaPref.isPrefixOf e then none
    else resolve e

/-- An entry that is neither "." nor ".." nor a dot-file nor
metadata-named, so the loop must resolve it before the callback. -/
abbrev needsResolve (metaPref : List Char) (e : List Char) : Prop :=
  ¬(e = ['.'] ∨ e = ['.', '.']) ∧ ¬(e.head? = some '.') ∧
    ¬(metaPref.isPrefixOf e = true)

lemma iterLoop_append (metaPref : List Char)
    (resolve : List Char → Option (List Char))
    (pre rest : List (List Char))
    (h : ∀ e ∈ pre, needsResolve metaPref e → resolve e ≠ none) :
    iterLoop metaPref resolve (pre ++ rest) =
      (iterDirSpec metaPref resolve pre ++ (iterLoop metaPref resolve rest).1,
       (iterLoop metaPref resolve rest).2) := by
  induction pre with
  | nil => simp [iterDirSpec]
  | cons e pre ih =>
    have hrest : ∀ x ∈ pre, needsResolve metaPref x → resolve x ≠ none :=
      fun x hx => h x (List.mem_cons_of_mem e hx)
    have hih := ih hrest
    by_cases h1 : e = ['.'] ∨ e = ['.', '.']
    · simp [iterLoop, iterDirSpec, h1, hih, List.filterMap_cons]
    · by_cases h2 : e.head? = some '.'
      · simp [iterLoop, iterDirSpec, h1, h2, hih, List.filterMap_cons]
      · by_cases h3 : metaPref.isPrefixOf e = true
        · have h3' : metaPref <+: e := by simpa using h3
          simp [iterLoop, iterDirSpec, h1, h2, h3, h3', hih, List.filterMap_cons]
        · obtain ⟨n, hn⟩ : ∃ n, resolve e = some n :=
            Option.ne_none_iff_exists'.mp
              (h e (List.mem_cons_self e pre) ⟨h1, h2, h3⟩)
          have h3' : ¬ metaPref <+: e := by simpa using h3
          simp [iterLoop, iterDirSpec, h1, h2, h3, h3', hn, hih, List.filterMap_cons]

/-- C8: rvault_iter_dir invokes the callback with "." and ".." passed
through unchanged and with the resolved logical name of every other
entry that does not begin with a dot and does not begin with the
metadata-file prefix; dot-files and metadata-named entries are never
surfaced.  (Hypothesis: every entry that requires resolution does
resolve, the case settled separately for claim C7.) -/
theorem rvault_iter_dir_surfaces_spec (metaPref : List Char)
    (resolve : List Char → Option (List Char))
    (entries : List (List Char))
    (h : ∀ e ∈ entries, needsResolve metaPref e → resolve e ≠ none) :
    rvault_iter_dir metaPref resolve (some entries) =
      (iterDirSpec metaPref resolve entries, true) := by
  have := iterLoop_append metaPref resolve entries [] h
  simpa [rvault_iter_dir, iterLoop] using this

/-- Witness for C8 on a concrete directory: files a, b, a dot-file, the
metadata file and the two special entries. -/
theorem rvault_iter_dir_surfaces_spec_witness :
    rvault_iter_dir ['r', 'v'] (fun e => some ('L' :: e))
      (some [['.'], ['.', '.'], ['a'], ['.', 'h'], ['r', 'v', 'm'], ['b']]) =
      ([['.'], ['.', '.'], ['L', 'a'], ['L', 'b']], true) :=
  rvault_iter_dir_surfaces_spec ['r', 'v'] (fun e => some ('L' :: e))
    [['.'], ['.', '.'], ['a'], ['.', 'h'], ['r', 'v', 'm'], ['b']]
    (by decide)

/-- C7 counterexample: with stored entries a, bad, b where only "bad"
fails to resolve, the enumeration does NOT skip "bad" and continue: it
stops with an error after surfacing only "a", never surfacing "b". -/
theorem rvault_iter_dir_abort_counterexample :
    rvault_iter_dir ['r', 'v']
      (fun e => if e = ['b', 'a', 'd'] then none else some ('L' :: e))
      (some [['a'], ['b', 'a', 'd'], ['b']]) = ([['L', 'a']], false) ∧
    ([['L', 'a']], false) ≠
      ([['L', 'a'], ['L', 'b']], true) := by
  exact ⟨by decide, by decide⟩

/-- C7 as amended: a stored entry whose name fails to resolve aborts the
enumeration: rvault_iter_dir returns an error, the callback having been
invoked exactly for the entries surfaced before the failing one; the
remaining entries are not enumerated. -/
theorem rvault_iter_dir_abort (metaPref : List Char)
    (resolve : List Char → Option (List Char))
    (pre post : List (List Char)) (bad : List Char)
    (hpre : ∀ e ∈ pre, needsResolve metaPref e → resolve e ≠ none)
    (hbad : needsResolve metaPref bad) (hres : resolve bad = none) :
    rvault_iter_dir metaPref resolve (some (pre ++ bad :: post)) =
      (iterDirSpec metaPref resolve pre, false) := by
  have hb : iterLoop metaPref resolve (bad :: post) = ([], false) := by
    obtain ⟨h1, h2, h3⟩ := hbad
    simp [iterLoop, h1, h2, h3, hres]
  have := iterLoop_append metaPref resolve pre (bad :: post) hpre
  simp [rvault_iter_dir, this, hb]

/-- Witness for the amended C7 on the concrete counterexample input. -/
theorem rvault_iter_dir_abort_witness :
    rvault_iter_dir ['r', 'v']
      (fun e => if e = ['b', 'a', 'd'] then none else some ('L' :: e))
      (some ([['a']] ++ ['b', 'a', 'd'] :: [['b']])) =
      (iterDirSpec ['r', 'v']
        (fun e => if e = ['b', 'a', 'd'] then none else some ('L' :: e))
        [['a']], false) :=
  rvault_iter_dir_abort ['r', 'v']
    (fun e => if e = ['b', 'a', 'd'] then none else some ('L' :: e))
    [['a']] [['b']] ['b', 'a', 'd'] (by decide) (by decide) (by decide)

lemma closeFilesLoop_self (l : List Nat) : closeFilesLoop l l.length = (0, l) := by
  induction l with
  | nil => rfl
  | cons x rest ih => simp [closeFilesLoop, ih]

/-- C10: rvault_close is safe on every partially-constructed vault: it
first closes every file object in file_list (draining it, so the
resulting count is 0 and the ASSERT in rvault_close_files holds), then
frees base_path exactly when it is non-NULL and destroys the crypto
state exactly when it is non-NULL; no unset resource is touched, so the
error paths of open, open_hdr and open_ekey can always invoke it.  The
hypothesis is the counter/list invariant maintained by the file-object
code. -/
theorem rvault_close_partial_safe (v : rvault_t)
    (h : v.file_count = v.file_list.length) :
    rvault_close v = { closedFiles := v.file_list,
                       freedBase := v.base_path.isSome,
                       destroyedCrypto := v.crypto.isSome } ∧
    (rvault_close_files v).1.file_count = 0 ∧
    (rvault_close_files v).1.file_list = [] := by
  refine ⟨?_, ?_, ?_⟩ <;>
    simp [rvault_close, rvault_close_files, h, closeFilesLoop_self]

/-- A vault with every optional resource set, two open file objects. -/
def closeDemoVault : rvault_t :=
  { base_path := some "p", uid := [], cipher := 1,
    crypto := some { cipher := 1 }, server_url := none,
    file_list := [7, 8], file_count := 2 }

/-- Witness for C10 on a concrete vault. -/
theorem rvault_close_partial_safe_witness :
    rvault_close closeDemoVault =
      { closedFiles := [7, 8], freedBase := true, destroyedCrypto := true } ∧
    (rvault_close_files closeDemoVault).1.file_count = 0 ∧
    (rvault_close_files closeDemoVault).1.file_list = [] :=
  rvault_close_partial_safe closeDemoVault rfl

/-- A concrete little-endian instantiation of the modelled primitives
for concrete runs: the KDF depends on the passphrase (so different
passphrases derive different keys) and the tag depends on the key and
the data. -/
def envLE : CryptoEnv :=
  { hostLE := true
    ivLenOf := fun _ => 16
    keyLenOf := fun _ => 32
    kdf := fun p _ => some ((p.data.map Char.toNat ++ List.replicate 32 7).take 32)
    hmac := fun k d => (List.range 32).map
      (fun i => (k.getD i 0 + d.getD i 0 + d.length) % 256) }

/-- The same primitives on a big-endian host. -/
def envBE : CryptoEnv := { envLE with hostLE := false }

/-- The all-zero UUID in canonical hex form. -/
def uidZ : String := "00000000-0000-0000-0000-000000000000"

/-- A fully successful oracle: 16-byte IV, a 1-byte KDF parameter blob,
server registration succeeding with a fresh 32-byte key, write of any
length succeeding. -/
def orcA : InitOracle :=
  { genIv := some (List.replicate 16 9), kdfParams := some [66],
    serverKey := some (List.replicate 32 5), writeBytes := 1000000 }

/-- An empty vault directory. -/
def fsEmpty : FS := { dirExists := true, metadata := none }

lemma crypto_cipher_id_recognized (s : String)
    (h : crypto_cipher_id s ≠ CIPHER_NONE) :
    cipherRecognized (crypto_cipher_id s) = true := by
  unfold crypto_cipher_id at h ⊢
  split_ifs at h ⊢ <;> simp_all [cipherRecognized, CIPHER_NONE]

/-- C5: when the target directory already contains a metadata file, the
O_CREAT|O_EXCL|O_WRONLY|O_SYNC open (mode 0600) in rvault_init fails,
init reports the existing-vault error, and the file system -- in
particular the existing metadata file -- is left exactly as it was.
The other hypotheses say the steps before the metadata open succeed. -/
theorem rvault_init_already_exists (env : CryptoEnv) (orc : InitOracle)
    (fs : FS) (server : Option String) (pwd uidStr cs : String)
    (flags : Nat) (iv kp k0 uid : List Nat)
    (hdir : fs.dirExists = true) (hmeta : fs.metadata.isSome)
    (hcs : crypto_cipher_id cs ≠ CIPHER_NONE)
    (hiv : orc.genIv = some iv)
    (hivlen : iv.length = env.ivLenOf (crypto_cipher_id cs))
    (hkp : orc.kdfParams = some kp)
    (hkdf : env.kdf pwd kp = some k0)
    (huid : hex_read_arbitrary_buf uidStr = some uid)
    (hul : uid.length = 16)
    (hauth : flags &&& RVAULT_FLAG_NOAUTH ≠ 0 ∨
      (server.isSome ∧ orc.serverKey.isSome)) :
    rvault_init env orc fs server pwd uidStr (some cs) flags =
      (.error .metaExists, fs) := by
  have hrec := crypto_cipher_id_recognized cs hcs
  obtain ⟨c, hc⟩ := Option.isSome_iff_exists.mp hmeta
  rcases hauth with hnoauth | ⟨hs, hk⟩
  · simp [rvault_init, hcs, crypto_create, hrec, hiv, crypto_set_iv, hivlen,
      hkp, crypto_set_passphrasekey, hkdf, huid, hul, hnoauth, hdir, hc]
  · obtain ⟨srv, hsrv⟩ := Option.isSome_iff_exists.mp hs
    obtain ⟨sk, hsk⟩ := Option.isSome_iff_exists.mp hk
    by_cases hflag : flags &&& RVAULT_FLAG_NOAUTH = 0 <;>
      simp [rvault_init, hcs, crypto_create, hrec, hiv, crypto_set_iv, hivlen,
        hkp, crypto_set_passphrasekey, hkdf, huid, hul, hsrv, hsk, hdir, hc,
        hflag]

/-- A directory that already holds a metadata file. -/
def fsHasMeta : FS := { dirExists := true, metadata := some [1, 2, 3] }

/-- Witness for C5: a NOAUTH init over an existing vault. -/
theorem rvault_init_already_exists_witness :
    rvault_init envLE orcA fsHasMeta none "pw" uidZ (some "aes-256-cbc") 1 =
      (.error .metaExists, fsHasMeta) :=
  rvault_init_already_exists envLE orcA fsHasMeta none "pw" uidZ
    "aes-256-cbc" 1 (List.replicate 16 9) [66]
    (("pw".data.map Char.toNat ++ List.replicate 32 7).take 32)
    (List.replicate 16 0) rfl rfl (by decide) rfl (by decide) rfl (by decide)
    (by decide) (by decide) (Or.inl (by decide))

lemma rvault_init_result (env : CryptoEnv) (orc : InitOracle) (fs : FS)
    (server : Option String) (pwd uidStr : String)
    (cipherStr : Option String) (flags : Nat) :
    (∃ bytes, rvault_init env orc fs server pwd uidStr cipherStr flags =
        (.ok (), { fs with metadata := some bytes })) ∨
    (∃ bytes, rvault_init env orc fs server pwd uidStr cipherStr flags =
        (.error .writeFail, { fs with metadata := some bytes })) ∨
    (∃ e, rvault_init env orc fs server pwd uidStr cipherStr flags =
        (.error e, fs) ∧ e ≠ InitErr.writeFail) := by
  simp only [rvault_init]
  repeat' split
  all_goals first
    | exact Or.inl ⟨_, rfl⟩
    | exact Or.inr (Or.inl ⟨_, rfl⟩)
    | (refine Or.inr (Or.inr ⟨_, rfl, ?_⟩); decide)
    | (refine Or.inr (Or.inr ⟨_, rfl, ?_⟩)
       rename_i e heq
       repeat' split at heq
       all_goals (try cases heq)
       all_goals decide)

/-- C6 as amended: any rvault_init failure before the metadata-file open
(bad cipher, IV/KDF/key generation failure, malformed UID, missing
server URL, server registration failure, missing directory, existing
metadata file) leaves the file system exactly unchanged, so no on-disk
artifact is created; but when fs_write fails after the O_CREAT|O_EXCL
create, the partially written metadata file is left on disk --
rvault_init does not remove it. -/
theorem rvault_init_atomic (env : CryptoEnv) (orc : InitOracle) (fs : FS)
    (server : Option String) (pwd uidStr : String)
    (cipherStr : Option String) (flags : Nat) (e : InitErr)
    (he : (rvault_init env orc fs server pwd uidStr cipherStr flags).1 =
      .error e) :
    (e ≠ .writeFail →
      (rvault_init env orc fs server pwd uidStr cipherStr flags).2 = fs) ∧
    (e = .writeFail →
      (rvault_init env orc fs server pwd uidStr cipherStr flags).2.metadata ≠
        none) := by
  rcases rvault_init_result env orc fs server pwd uidStr cipherStr flags with
    ⟨b, hb⟩ | ⟨b, hb⟩ | ⟨e2, hb, hne⟩
  · rw [hb] at he; simp at he
  · have he2 : InitErr.writeFail = e := by rw [hb] at he; simpa using he
    subst he2
    refine ⟨fun hne => absurd rfl hne, fun _ => ?_⟩
    rw [hb]; simp
  · have he2 : e2 = e := by rw [hb] at he; simpa using he
    subst he2
    exact ⟨fun _ => by rw [hb], fun hw => absurd hw hne⟩

/-- The successful oracle, except the write delivers only 10 bytes. -/
def orcW : InitOracle := { orcA with writeBytes := 10 }

/-- C6 counterexample: a concrete NOAUTH init whose metadata write
fails; the claim says the partial file is removed, but rvault_init
leaves the 10 written bytes on disk (there is no unlink in rvault.c). -/
theorem rvault_init_partial_file_left :
    (rvault_init envLE orcW fsEmpty none "pw" uidZ
        (some "aes-256-cbc") 1).1 = .error .writeFail ∧
    (rvault_init envLE orcW fsEmpty none "pw" uidZ
        (some "aes-256-cbc") 1).2.metadata ≠ none := by
  exact ⟨by decide, by decide⟩

/-- Witness for the amended C6 at the concrete failing write. -/
theorem rvault_init_atomic_witness :
    (rvault_init envLE orcW fsEmpty none "pw" uidZ
        (some "aes-256-cbc") 1).2.metadata ≠ none :=
  (rvault_init_atomic envLE orcW fsEmpty none "pw" uidZ
    (some "aes-256-cbc") 1 .writeFail (by decide)).2 rfl

/-- The metadata file a concrete NOAUTH init writes on a little-endian
host (aes-256-cbc, passphrase "pw", 16-byte IV, 1-byte KDF blob). -/
def fileLE : List Nat :=
  ((rvault_init envLE orcA fsEmpty none "pw" uidZ
      (some "aes-256-cbc") 1).2.metadata).getD []

/-- The same init on a big-endian host. -/
def fileBE : List Nat :=
  ((rvault_init envBE orcA fsEmpty none "pw" uidZ
      (some "aes-256-cbc") 1).2.metadata).getD []

set_option maxRecDepth 4000 in
/-- C2: rvault_init stores iv_len with htobe16 but kp_len with a plain
assignment, so kp_len is written in host byte order.  On a little-endian
host the stored kp_len bytes for a 1-byte KDF blob are [1, 0]; the
read-side macros decode them with be16toh as 256, meaning the stored
bytes do NOT match the layout the macros expect, and init's own output
fails RVAULT_FILE_LEN; only the raw (non-be16toh) kp_len read used for
open's KDF derivation still matches the blob length.  On a big-endian
host the bytes do decode as claimed. -/
theorem init_kp_len_not_big_endian :
    (rvault_init envLE orcA fsEmpty none "pw" uidZ
        (some "aes-256-cbc") 1).1 = .ok () ∧
    orcA.kdfParams = some [66] ∧
    fileLE.getD 4 0 = 1 ∧ fileLE.getD 5 0 = 0 ∧
    hdrKpLenBE fileLE = 256 ∧
    RVAULT_FILE_LEN fileLE ≠ fileLE.length ∧
    hdrKpLenHost true fileLE = 1 ∧
    hdrKpLenBE fileBE = 1 ∧
    RVAULT_FILE_LEN fileBE = fileBE.length := by
  decide

/-- Modelled from the spec: crypto_encrypt and crypto_decrypt (crypto.c
is not in the tree) as a keystream transform under the installed key;
the spec-level contract is that decrypt inverts encrypt under the same
key. -/
def xorKeystream (k : List Nat) : Nat → List Nat → List Nat
  | _, [] => []
  | i, b :: rest =>
    (b ^^^ k.getD (i % (k.length + 1)) 0) :: xorKeystream k (i + 1) rest

/-- crypto_encrypt: transform the plaintext under the installed key;
fails (like the C code) when no key is installed. -/
def crypto_encrypt (st : crypto_t) (x : List Nat) : Option (List Nat) :=
  st.key.map fun k => xorKeystream k 0 x

/-- crypto_decrypt: inverse transform under the installed key. -/
def crypto_decrypt (st : crypto_t) (x : List Nat) : Option (List Nat) :=
  st.key.map fun k => xorKeystream k 0 x

set_option maxRecDepth 8000 in
/-- C1: on a little-endian host the NOAUTH round trip fails: init
succeeds and writes the vault, but rvault_open with the very same
passphrase rejects init's own output at the RVAULT_FILE_LEN check
(because kp_len was stored in host order and is decoded with be16toh).
On a big-endian host, where the plain store coincides with big-endian,
the same init/open round trip succeeds and decrypt(encrypt(x)) = x
under the opened vault's key. -/
theorem open_after_init_roundtrip_fails_le :
    (rvault_init envLE orcA fsEmpty none "pw" uidZ
        (some "aes-256-cbc") 1).1 = .ok () ∧
    rvault_open envLE ⟨none⟩
      (rvault_init envLE orcA fsEmpty none "pw" uidZ
        (some "aes-256-cbc") 1).2 "/v" none "pw" = .error .corruptLen ∧
    (match rvault_open envBE ⟨none⟩
        (rvault_init envBE orcA fsEmpty none "pw" uidZ
          (some "aes-256-cbc") 1).2 "/v" none "pw" with
      | .ok v =>
        match v.crypto with
        | some st => crypto_decrypt st ((crypto_encrypt st [10, 20, 30]).getD [])
        | none => none
      | .error _ => none) = some [10, 20, 30] := by
  decide

lemma rvault_open_hdr_env_inv (env1 env2 : CryptoEnv) (f : List Nat)
    (server : Option String) (fileLen : Nat)
    (hiv : env1.ivLenOf = env2.ivLenOf) :
    rvault_open_hdr env1 f server fileLen =
      rvault_open_hdr env2 f server fileLen := by
  unfold rvault_open_hdr crypto_set_iv
  rw [hiv]

lemma rvault_open_hdr_ok (env : CryptoEnv) (f : List Nat)
    (server : Option String) (fileLen : Nat) (v : rvault_t)
    (h : rvault_open_hdr env f server fileLen = .ok v) :
    v = { cipher := hdrCipher f, server_url := server, uid := hdrUid f,
          crypto := some { cipher := hdrCipher f,
                           iv := some (RVAULT_HDR_TO_IV f), key := none } } := by
  unfold rvault_open_hdr at h
  repeat' split at h
  all_goals (try cases h)
  rename_i x1 st hcr x2 st1 hsi
  unfold crypto_create at hcr
  split at hcr <;> cases hcr
  unfold crypto_set_iv at hsi
  split at hsi <;> cases hsi
  rfl

/-- C9: rvault_open_ekey constructs the vault from the recovery blob
alone: its whole result is independent of the KDF, the HMAC, the host
endianness and any server interaction (there is no server argument and
changing those environment components does not change the result, so no
passphrase derivation, server contact or HMAC re-verification occurs);
and on success the crypto state carries the IV parsed from the blob's
METADATA section and the key installed directly from the blob's EKEY
section via crypto_set_key. -/
theorem rvault_open_ekey_from_blob (env1 env2 : CryptoEnv) (fs : FS)
    (path : String) (blob : Option RecoveryBlob)
    (hiv : env1.ivLenOf = env2.ivLenOf)
    (hkey : env1.keyLenOf = env2.keyLenOf) :
    rvault_open_ekey env1 fs path blob = rvault_open_ekey env2 fs path blob ∧
    (∀ b v, blob = some b → rvault_open_ekey env1 fs path blob = .ok v →
      v.crypto = some { cipher := hdrCipher b.metadata,
                        iv := some (RVAULT_HDR_TO_IV b.metadata),
                        key := some b.ekey }) := by
  constructor
  · cases blob with
    | none => rfl
    | some b =>
      simp only [rvault_open_ekey, crypto_set_key]
      rw [rvault_open_hdr_env_inv env1 env2 b.metadata none
        b.metadata.length hiv, hkey]
  · intro b v hb hv
    subst hb
    simp only [rvault_open_ekey, crypto_set_key] at hv
    repeat' split at hv
    all_goals (try cases hv)
    rename_i hdir0 xA vault0 hhdr xB st hc xC st1 hsk
    have h0 := rvault_open_hdr_ok env1 b.metadata none b.metadata.length
      vault0 hhdr
    subst h0
    cases hc
    split at hsk <;> cases hsk
    rfl

/-- A valid 112-byte metadata image: ver 1, cipher 1, iv_len 16,
kp_len 0, NOAUTH flag, 16-byte IV, all-zero tag bytes. -/
def hdrDemoBytes : List Nat :=
  [1, 1, 0, 16, 0, 0] ++ List.replicate 16 0 ++ [1] ++ List.replicate 41 0 ++
    List.replicate 16 9 ++ List.replicate 32 0

/-- A recovery blob holding that metadata image and a 32-byte key. -/
def blobDemo : RecoveryBlob :=
  { metadata := hdrDemoBytes, ekey := List.replicate 32 3 }

/-- A deliberately broken environment: failing KDF, empty HMAC, other
endianness; the recovery path must not notice. -/
def envAlt : CryptoEnv :=
  { envLE with
    hostLE := false
    kdf := fun _ _ => none
    hmac := fun _ _ => [] }

/-- Witness for C9 on the concrete blob and the two environments. -/
theorem rvault_open_ekey_from_blob_witness :
    (rvault_open_ekey envLE fsEmpty "/v" (some blobDemo) =
      rvault_open_ekey envAlt fsEmpty "/v" (some blobDemo)) ∧
    (∀ b v, some blobDemo = some b →
      rvault_open_ekey envLE fsEmpty "/v" (some blobDemo) = .ok v →
      v.crypto = some { cipher := hdrCipher b.metadata,
                        iv := some (RVAULT_HDR_TO_IV b.metadata),
                        key := some b.ekey }) :=
  rvault_open_ekey_from_blob envLE envAlt fsEmpty "/v" (some blobDemo) rfl rfl

lemma length_RVAULT_HDR_TO_IV (f : List Nat)
    (h : RVAULT_FILE_LEN f = f.length) :
    (RVAULT_HDR_TO_IV f).length = hdrIvLen f := by
  have h' : RVAULT_HDR_LEN + hdrIvLen f + hdrKpLenBE f +
      HMAC_SHA3_256_BUFLEN = f.length := by
    simpa [RVAULT_FILE_LEN, RVAULT_HMAC_DATALEN] using h
  simp only [RVAULT_HDR_TO_IV, List.length_take, List.length_drop]
  omega

lemma rvault_open_hdr_ok_of (env : CryptoEnv) (f : List Nat)
    (server : Option String)
    (hver : hdrVer f = RVAULT_ABI_VER)
    (hflen : RVAULT_FILE_LEN f = f.length)
    (hcip : cipherRecognized (hdrCipher f) = true)
    (hivl : hdrIvLen f = env.ivLenOf (hdrCipher f)) :
    rvault_open_hdr env f server f.length =
      .ok { cipher := hdrCipher f, server_url := server, uid := hdrUid f,
            crypto := some { cipher := hdrCipher f,
                             iv := some (RVAULT_HDR_TO_IV f), key := none } } := by
  have hl := length_RVAULT_HDR_TO_IV f hflen
  unfold rvault_open_hdr crypto_create crypto_set_iv
  simp [hver, hflen, hcip, hl, hivl]

/-- The key rvault_open has installed when it reaches the HMAC check:
the fetched K_e in authenticated mode, K_p itself under NOAUTH. -/
def openInstalledKey (env : CryptoEnv) (orc : OpenOracle) (f : List Nat)
    (pwd : String) : Option (List Nat) :=
  if hdrFlags f &&& RVAULT_FLAG_NOAUTH = 0 then orc.fetchKey
  else env.kdf pwd (hdrKpHost env.hostLE f)

/-- Everything that brings rvault_open to the HMAC verification: the
directory and file exist, all header checks pass, the IV installs, the
passphrase key derives and (in authenticated mode) the server fetch
succeeds. -/
abbrev openReachesVerify (env : CryptoEnv) (orc : OpenOracle) (fs : FS)
    (server : Option String) (pwd : String) (f : List Nat) : Prop :=
  fs.dirExists = true ∧ fs.metadata = some f ∧
  RVAULT_HDR_LEN ≤ f.length ∧
  hdrVer f = RVAULT_ABI_VER ∧
  RVAULT_FILE_LEN f = f.length ∧
  cipherRecognized (hdrCipher f) = true ∧
  hdrIvLen f = env.ivLenOf (hdrCipher f) ∧
  (env.kdf pwd (hdrKpHost env.hostLE f)).isSome = true ∧
  (hdrFlags f &&& RVAULT_FLAG_NOAUTH = 0 →
    server.isSome = true ∧ orc.fetchKey.isSome = true)

lemma rvault_open_at_verify (env : CryptoEnv) (orc : OpenOracle) (fs : FS)
    (path : String) (server : Option String) (pwd : String) (f : List Nat)
    (h : openReachesVerify env orc fs server pwd f) :
    rvault_open env orc fs path server pwd =
      if env.hmac ((openInstalledKey env orc f pwd).getD [])
          (f.take (RVAULT_HMAC_DATALEN f)) = hdrHmac f
      then .ok { base_path := some path, uid := hdrUid f,
                 cipher := hdrCipher f, server_url := server,
                 crypto := some { cipher := hdrCipher f,
                                  iv := some (RVAULT_HDR_TO_IV f),
                                  key := openInstalledKey env orc f pwd } }
      else .error .verifyFail := by
  obtain ⟨hdir, hf, hlen, hver, hflen, hcip, hivl, hkdf, hauth⟩ := h
  obtain ⟨k0, hk0⟩ := Option.isSome_iff_exists.mp hkdf
  have hnl : ¬ f.length < RVAULT_HDR_LEN := by omega
  have hhdr := rvault_open_hdr_ok_of env f server hver hflen hcip hivl
  by_cases hflag : hdrFlags f &&& RVAULT_FLAG_NOAUTH = 0
  · obtain ⟨hs, hfk⟩ := hauth hflag
    obtain ⟨srv, hsrv⟩ := Option.isSome_iff_exists.mp hs
    obtain ⟨ke, hke⟩ := Option.isSome_iff_exists.mp hfk
    subst hsrv
    simp [rvault_open, hdir, hf, hnl, hhdr, crypto_set_passphrasekey, hk0,
      hflag, hke, openInstalledKey, rvault_hmac_verify,
      rvault_hmac_compute, crypto_get_key]
  · simp [rvault_open, hdir, hf, hnl, hhdr, crypto_set_passphrasekey, hk0,
      hflag, openInstalledKey, rvault_hmac_verify, rvault_hmac_compute,
      crypto_get_key]

/-- C4: two-run indistinguishability of open failures: any two runs of
rvault_open that reach the HMAC verification and fail it -- for
instance a vault whose stored metadata/HMAC was tampered with, opened
under the correct passphrase, and an intact vault opened under a wrong
passphrase -- fail through the same HMAC branch and produce the same
user-visible outcome, the verification error; the observable result
does not reveal which of the two causes occurred. -/
theorem rvault_open_verify_indistinguishable
    (env1 env2 : CryptoEnv) (orc1 orc2 : OpenOracle) (fs1 fs2 : FS)
    (path1 path2 : String) (server1 server2 : Option String)
    (pwd1 pwd2 : String) (f1 f2 : List Nat)
    (h1 : openReachesVerify env1 orc1 fs1 server1 pwd1 f1)
    (h2 : openReachesVerify env2 orc2 fs2 server2 pwd2 f2)
    (hm1 : env1.hmac ((openInstalledKey env1 orc1 f1 pwd1).getD [])
        (f1.take (RVAULT_HMAC_DATALEN f1)) ≠ hdrHmac f1)
    (hm2 : env2.hmac ((openInstalledKey env2 orc2 f2 pwd2).getD [])
        (f2.take (RVAULT_HMAC_DATALEN f2)) ≠ hdrHmac f2) :
    rvault_open env1 orc1 fs1 path1 server1 pwd1 = .error .verifyFail ∧
    rvault_open env2 orc2 fs2 path2 server2 pwd2 = .error .verifyFail ∧
    rvault_open env1 orc1 fs1 path1 server1 pwd1 =
      rvault_open env2 orc2 fs2 path2 server2 pwd2 := by
  have e1 := rvault_open_at_verify env1 orc1 fs1 path1 server1 pwd1 f1 h1
  have e2 := rvault_open_at_verify env2 orc2 fs2 path2 server2 pwd2 f2 h2
  rw [if_neg hm1] at e1
  rw [if_neg hm2] at e2
  exact ⟨e1, e2, by rw [e1, e2]⟩

/-- An 80-byte header region: ver 1, cipher 1, iv_len 16, kp_len 0,
NOAUTH flag, 16-byte IV, no KDF bytes. -/
def c4hdr : List Nat :=
  [1, 1, 0, 16, 0, 0] ++ List.replicate 16 0 ++ [1] ++ List.replicate 41 0 ++
    List.replicate 16 9

/-- The key open installs for passphrase "pw" on that file. -/
def c4key : List Nat := (envLE.kdf "pw" []).getD []

/-- The correct tag for that header region under that key. -/
def c4tag : List Nat := envLE.hmac c4key c4hdr

/-- An intact metadata file for passphrase "pw". -/
def c4good : List Nat := c4hdr ++ c4tag

/-- The same file with the first stored HMAC byte tampered. -/
def c4bad : List Nat := c4hdr ++ ((c4tag.getD 0 0 + 1) % 256 :: c4tag.drop 1)

set_option maxRecDepth 8000 in
/-- Witness for C4: tampered HMAC with the right passphrase versus
intact metadata with a wrong passphrase -- identical outcomes. -/
theorem rvault_open_verify_indistinguishable_witness :
    rvault_open envLE ⟨none⟩ ⟨true, some c4bad⟩ "/v" none "pw" =
      .error .verifyFail ∧
    rvault_open envLE ⟨none⟩ ⟨true, some c4good⟩ "/v" none "wp" =
      .error .verifyFail ∧
    rvault_open envLE ⟨none⟩ ⟨true, some c4bad⟩ "/v" none "pw" =
      rvault_open envLE ⟨none⟩ ⟨true, some c4good⟩ "/v" none "wp" :=
  rvault_open_verify_indistinguishable envLE envLE ⟨none⟩ ⟨none⟩
    ⟨true, some c4bad⟩ ⟨true, some c4good⟩ "/v" "/v" none none "pw" "wp"
    c4bad c4good (by decide) (by decide) (by decide) (by decide)

/-- A 96-byte file: ver 1, cipher 1, NOAUTH flag, iv_len 0 and
kp_len 0 in the header; no IV or KDF bytes, then the 32 tag bytes. -/
def c3hdr : List Nat :=
  [1, 1, 0, 0, 0, 0] ++ List.replicate 16 0 ++ [1] ++ List.replicate 41 0

/-- The key open would install for that file under passphrase "pw". -/
def c3key : List Nat := (envLE.kdf "pw" []).getD []

/-- The file with a tag that verifies under that key. -/
def c3file : List Nat := c3hdr ++ envLE.hmac c3key c3hdr

set_option maxRecDepth 4000 in
/-- C3 counterexample: a metadata file satisfying all five conditions
of the claim -- at least one header long, matching ABI version,
recognized cipher, RVAULT_FILE_LEN equal to the file size, and an HMAC
that verifies under the key open installs -- on which rvault_open still
returns no handle: the header's iv_len (0) differs from the cipher's
required IV length, so crypto_set_iv fails.  The claimed five
conditions are therefore not sufficient; the "if" direction of the
claimed equivalence fails. -/
theorem rvault_open_ok_iff_counterexample :
    RVAULT_HDR_LEN ≤ c3file.length ∧
    hdrVer c3file = RVAULT_ABI_VER ∧
    cipherRecognized (hdrCipher c3file) = true ∧
    RVAULT_FILE_LEN c3file = c3file.length ∧
    rvault_hmac_verify envLE { cipher := 1, iv := none, key := some c3key }
      c3file = true ∧
    rvault_open envLE ⟨none⟩ ⟨true, some c3file⟩ "/v" none "pw" =
      .error .setIvFail := by
  decide

lemma rvault_open_hdr_ok_conditions (env : CryptoEnv) (f : List Nat)
    (server : Option String) (fileLen : Nat) (v : rvault_t)
    (h : rvault_open_hdr env f server fileLen = .ok v) :
    hdrVer f = RVAULT_ABI_VER ∧ RVAULT_FILE_LEN f = fileLen ∧
    cipherRecognized (hdrCipher f) = true ∧
    (RVAULT_HDR_TO_IV f).length = env.ivLenOf (hdrCipher f) := by
  unfold rvault_open_hdr at h
  repeat' split at h
  all_goals (try cases h)
  rename_i x1 st hcr x2 st1 hsi
  unfold crypto_create at hcr
  split at hcr <;> cases hcr
  unfold crypto_set_iv at hsi
  split at hsi <;> cases hsi
  exact ⟨by by_contra hne; exact absurd hne (by assumption),
         by by_contra hne; exact absurd hne (by assumption),
         by assumption, by assumption⟩

/-- C3 as amended: rvault_open returns a vault handle if and only if
ALL of the following hold: the directory and its metadata file exist,
the file is at least one header long, header.ver equals the ABI
version, RVAULT_FILE_LEN(header) equals the actual file size, the
cipher is recognized, the header's iv_len equals the cipher's required
IV length (so crypto_set_iv succeeds), passphrase key derivation
succeeds, in authenticated mode a server URL is present and the key
fetch succeeds, and the header HMAC verifies under the installed key;
any one failure aborts open with no handle returned.  (The claim's five
conditions alone are not sufficient; see the counterexample.) -/
theorem rvault_open_ok_iff (env : CryptoEnv) (orc : OpenOracle) (fs : FS)
    (path : String) (server : Option String) (pwd : String) :
    (∃ v, rvault_open env orc fs path server pwd = .ok v) ↔
    (∃ f, openReachesVerify env orc fs server pwd f ∧
      env.hmac ((openInstalledKey env orc f pwd).getD [])
        (f.take (RVAULT_HMAC_DATALEN f)) = hdrHmac f) := by
  constructor
  · rintro ⟨v, hv⟩
    by_cases hdir : fs.dirExists = true
    swap
    · exfalso; simp [rvault_open, hdir] at hv
    rcases hmeta : fs.metadata with _ | f
    · exfalso; simp [rvault_open, hdir, hmeta] at hv
    by_cases hlen : f.length < RVAULT_HDR_LEN
    · exfalso; simp [rvault_open, hdir, hmeta, hlen] at hv
    rcases hh : rvault_open_hdr env f server f.length with e | v0
    · exfalso; simp [rvault_open, hdir, hmeta, hlen, hh] at hv
    obtain ⟨hver, hflen, hcip, hivl0⟩ :=
      rvault_open_hdr_ok_conditions env f server f.length v0 hh
    have h0 := rvault_open_hdr_ok env f server f.length v0 hh
    subst h0
    have hivl : hdrIvLen f = env.ivLenOf (hdrCipher f) := by
      rw [← length_RVAULT_HDR_TO_IV f hflen]; exact hivl0
    rcases hkdf : env.kdf pwd (hdrKpHost env.hostLE f) with _ | k0
    · exfalso
      simp [rvault_open, hdir, hmeta, hlen, hh, crypto_set_passphrasekey,
        hkdf] at hv
    refine ⟨f, ⟨hdir, hmeta, by omega, hver, hflen, hcip, hivl,
      by simp [hkdf], ?_⟩, ?_⟩
    · intro hflag
      rcases hsrv : server with _ | srv
      · exfalso
        simp [rvault_open, hdir, hmeta, hlen, hsrv, crypto_set_passphrasekey,
          hkdf, hflag] at hv
        rcases hh2 : rvault_open_hdr env f none f.length with e | w <;>
          simp [hh2] at hv
        obtain ⟨hver2, hflen2, hcip2, hivl2⟩ :=
          rvault_open_hdr_ok_conditions env f none f.length w hh2
        have h02 := rvault_open_hdr_ok env f none f.length w hh2
        subst h02
        simp [hflag] at hv
      rcases hfk : orc.fetchKey with _ | ke
      · exfalso
        subst hsrv
        simp [rvault_open, hdir, hmeta, hlen, hh, crypto_set_passphrasekey,
          hkdf, hflag, hfk] at hv
      simp [hsrv, hfk]
    · by_cases hflag : hdrFlags f &&& RVAULT_FLAG_NOAUTH = 0
      · rcases hsrv : server with _ | srv
        · exfalso
          simp [rvault_open, hdir, hmeta, hlen, hsrv, crypto_set_passphrasekey,
            hkdf, hflag] at hv
          rcases hh2 : rvault_open_hdr env f none f.length with e | w <;>
            simp [hh2] at hv
          obtain ⟨hver2, hflen2, hcip2, hivl2⟩ :=
            rvault_open_hdr_ok_conditions env f none f.length w hh2
          have h02 := rvault_open_hdr_ok env f none f.length w hh2
          subst h02
          simp [hflag] at hv
        rcases hfk : orc.fetchKey with _ | ke
        · exfalso
          subst hsrv
          simp [rvault_open, hdir, hmeta, hlen, hh, crypto_set_passphrasekey,
            hkdf, hflag, hfk] at hv
        subst hsrv
        simp only [rvault_open, hdir, hmeta, hlen, hh, if_neg,
          crypto_set_passphrasekey, hkdf, hflag, hfk] at hv
        simp [rvault_open, hdir, hmeta, hlen, hh, crypto_set_passphrasekey,
          hkdf, hflag, hfk, rvault_hmac_verify, rvault_hmac_compute,
          crypto_get_key, openInstalledKey] at hv ⊢
        by_cases hm : env.hmac ke (f.take (RVAULT_HMAC_DATALEN f)) = hdrHmac f
        · exact hm
        · simp [hm] at hv
      · simp [rvault_open, hdir, hmeta, hlen, hh, crypto_set_passphrasekey,
          hkdf, hflag, rvault_hmac_verify, rvault_hmac_compute,
          crypto_get_key, openInstalledKey] at hv ⊢
        by_cases hm : env.hmac k0 (f.take (RVAULT_HMAC_DATALEN f)) = hdrHmac f
        · simpa [hkdf] using hm
        · simp [hm] at hv
  · rintro ⟨f, hreach, hmac⟩
    have e := rvault_open_at_verify env orc fs path server pwd f hreach
    rw [if_pos hmac] at e
    exact ⟨_, e⟩
